import Mathlib

/-
  Verification of the ErgoFightStaticEnv adapter
  (gym_vrep/envs/ergo_fight_static_env.py).

  The module wraps an external physics simulator.  Everything the
  simulator itself does (collision detection, motor actuation, image
  capture) is an external collaborator; the adapter logic embedded here
  is the reward/cooldown state machine, the normalize/denormalize affine
  maps, the clamping of actions in the step method, and the reset/step
  state transitions on the adapter-owned fields (frames_after_hit, done,
  and the position targets last commanded to each arm).

  Numbers: joint angles and normalized actions are real-valued in the
  source (numpy floats); they are embedded as rationals, so all results
  are about the exact arithmetic of the formulas.  The cooldown counter
  and the random noise are integers in the source and are embedded as
  integers.
-/

namespace ErgoFight

/-- Source line 14: REST_POS = [0, 0, 0, 0, 0, 0]. -/
def REST_POS : List ℤ := [0, 0, 0, 0, 0, 0]

/-- Source lines 15-22: per-joint (low, high) ranges for the random
stance noise of arm B. -/
def RANDOM_NOISE : List (ℤ × ℤ) :=
  [(-90, 90), (-30, 30), (-30, 30), (-45, 45), (-30, 30), (-30, 30)]

/-- Source line 23: how many frames after a hit to reset. -/
def INVULNERABILITY_AFTER_HIT : ℤ := 3

/-- REST_POS at joint index i (the list has length 6, so the default is
never used). -/
def restPosAt (i : Fin 6) : ℤ := REST_POS.getD i.val 0

/-- RANDOM_NOISE at joint index i (the list has length 6, so the default
is never used). -/
def noiseRange (i : Fin 6) : ℤ × ℤ := RANDOM_NOISE.getD i.val (0, 0)

/-- Modelled from the spec: JOINT_LIMITS is imported from
gym_vrep.envs.constants, a file of this repository that is not among the
provided sources.  Per the spec data model it is a fixed per-joint
ordered pair (min, max) of angles, one per of 6 joints.  It is modelled
as an arbitrary table of per-joint pairs, so every theorem quantifies
over all such tables. -/
abbrev JointLimits : Type := Fin 6 → ℚ × ℚ

/-- Source line 48: self.diffs, the per-joint range widths
JOINT_LIMITS[i][1] - JOINT_LIMITS[i][0] computed in the constructor. -/
def diffs (limits : JointLimits) (i : Fin 6) : ℚ :=
  (limits i).2 - (limits i).1

/-- Source line 49: the constructor initializes self.frames_after_hit
to -1 (no recent hit). -/
def initFramesAfterHit : ℤ := -1

/-- The reward state machine of _getReward (source lines 95-111), as a
pure function from the collision reading and the current counter to the
returned reward and the updated counter.  The if-condition and the
update order (increment first, then compare against
INVULNERABILITY_AFTER_HIT) follow the source exactly. -/
def getReward (colliding : Bool) (frames_after_hit : ℤ) : ℤ × ℤ :=
  if colliding = true ∧ frames_after_hit = -1 then
    (1, 0)
  else
    let f1 := if 0 ≤ frames_after_hit then frames_after_hit + 1 else frames_after_hit
    let f2 := if INVULNERABILITY_AFTER_HIT ≤ f1 then (-1 : ℤ) else f1
    (0, f2)

/-- _normalize (source lines 130-136): affine map from a native angle
into the normalized range, per joint. -/
def normalize (limits : JointLimits) (pos : Fin 6 → ℚ) (i : Fin 6) : ℚ :=
  ((pos i - (limits i).1) / diffs limits i) * 2 - 1

/-- _denormalize (source lines 138-144): affine map from a normalized
action into the native joint range, per joint. -/
def denormalize (limits : JointLimits) (actions : Fin 6 → ℚ) (i : Fin 6) : ℚ :=
  ((actions i + 1) / 2) * diffs limits i + (limits i).1

/-- np.clip(x, -1, 1) on one component (source line 147):
min(max(x, -1), 1). -/
def clip (x : ℚ) : ℚ := min (max x (-1)) 1

/-- The adapter-owned mutable state relevant to the claims: the cooldown
counter, the termination flag, and the position targets last commanded
to arm A (self.motors[0]) and to arm B (self.motors[1]). -/
structure Env where
  frames_after_hit : ℤ
  done : Bool
  targetA : Fin 6 → ℚ
  targetB : Fin 6 → ℚ

/-- randomize (source lines 81-87): commands each of arm B motors to
REST_POS[i] plus a noise value; the noise values are the draws of
np.random.randint(low, high) and are passed in as an input satisfying
that primitive's contract (low inclusive, high exclusive). -/
def randomize (e : Env) (noise : Fin 6 → ℤ) : Env :=
  { e with targetB := fun i => ((restPosAt i + noise i : ℤ) : ℚ) }

/-- _restPos (source lines 68-79): clears done, restarts the simulation,
commands arm A to REST_POS, randomizes arm B, and settles for 15 frames
(the settle frames touch only simulator state, not adapter state). -/
def restPos (e : Env) (noise : Fin 6 → ℤ) : Env :=
  randomize
    { e with
      done := false
      targetA := fun i => ((restPosAt i : ℤ) : ℚ) }
    noise

/-- _reset (source lines 89-93): _restPos, then observe, then clear the
cooldown counter to -1. -/
def reset (e : Env) (noise : Fin 6 → ℤ) : Env :=
  { restPos e noise with frames_after_hit := -1 }

/-- _step (source lines 146-157): clip the actions, denormalize them,
command arm A to the result, advance the simulation one frame, observe,
compute the reward, and return.  The result quadruple is (the native
targets commanded to arm A, the reward, the returned done flag, the
updated adapter state); the collision reading of the frame is an
input. -/
def step (limits : JointLimits) (e : Env) (actions : Fin 6 → ℚ)
    (colliding : Bool) : (Fin 6 → ℚ) × ℤ × Bool × Env :=
  let acts := fun i => clip (actions i)
  let targets := denormalize limits acts
  let e1 := { e with targetA := targets }
  let r := getReward colliding e1.frames_after_hit
  (targets, r.1, e1.done, { e1 with frames_after_hit := r.2 })

/-- The adapter state after a step call. -/
def stepEnv (limits : JointLimits) (e : Env) (actions : Fin 6 → ℚ)
    (colliding : Bool) : Env :=
  (step limits e actions colliding).2.2.2

/-- The done flag returned by a step call. -/
def stepDone (limits : JointLimits) (e : Env) (actions : Fin 6 → ℚ)
    (colliding : Bool) : Bool :=
  (step limits e actions colliding).2.2.1

/-- The reward returned by a step call. -/
def stepReward (limits : JointLimits) (e : Env) (actions : Fin 6 → ℚ)
    (colliding : Bool) : ℤ :=
  (step limits e actions colliding).2.1

/-- Iterate step over a list of (action vector, collision reading)
inputs. -/
def runSteps (limits : JointLimits) (e : Env) :
    List ((Fin 6 → ℚ) × Bool) → Env
  | [] => e
  | x :: xs => runSteps limits (stepEnv limits e x.1 x.2) xs

/-- The invariant range of the cooldown counter claimed by the spec:
the sentinel -1 or a value in [0, INVULNERABILITY_AFTER_HIT). -/
def cooldownOK (f : ℤ) : Prop :=
  f = -1 ∨ (0 ≤ f ∧ f < INVULNERABILITY_AFTER_HIT)

instance (f : ℤ) : Decidable (cooldownOK f) := by
  unfold cooldownOK INVULNERABILITY_AFTER_HIT
  exact inferInstance

/-
  Attribute-level model of the Python object, for the claim about
  calling step before any reset.  Python instance attributes exist only
  once assigned; reading a missing one raises AttributeError.  Each
  attribute the step path reads is a field that is none until the
  assignment that creates it runs.  Attributes whose value is a handle
  into the external simulator (venv, motors, sword_collision, cam) carry
  Unit: only their presence matters here.
-/

/-- A Python error reachable in the modelled fragment. -/
inductive PyErr where
  | attributeError (name : String)
deriving DecidableEq

/-- The attribute dictionary of an ErgoFightStaticEnv instance,
restricted to the attributes the step path reads or writes. -/
structure PyEnv where
  venv : Option Unit
  motors : Option Unit
  sword_collision : Option Unit
  cam : Option Unit
  diffs : Option (Fin 6 → ℚ)
  frames_after_hit : Option ℤ
  done : Option Bool
  observation : Option Unit

/-- Reading an instance attribute: the value if it has been assigned,
AttributeError otherwise. -/
def readAttr {α : Type} (o : Option α) (name : String) : Except PyErr α :=
  match o with
  | some a => Except.ok a
  | none => Except.error (PyErr.attributeError name)

/-- The attribute dictionary right after ErgoFightStaticEnv.__init__
(source lines 27-49, which runs _startEnv at lines 54-66): the simulator
handles, self.diffs and self.frames_after_hit are assigned; self.done
and self.observation are not, since they are first assigned only inside
the reset path (_restPos line 69, _self_observe line 124). -/
def initPyEnv (limits : JointLimits) : PyEnv :=
  { venv := some ()
    motors := some ()
    sword_collision := some ()
    cam := some ()
    diffs := some (fun i => (limits i).2 - (limits i).1)
    frames_after_hit := some initFramesAfterHit
    done := none
    observation := none }

/-- The attribute reads and writes _reset performs (source lines 68-93):
_restPos assigns self.done, _self_observe assigns self.observation, then
self.frames_after_hit is assigned -1. -/
def resetPyEnv (e : PyEnv) : PyEnv :=
  { e with
    done := some false
    observation := some ()
    frames_after_hit := some (-1) }

/-- _step (source lines 146-157) traced at the level of instance
attribute reads, in source order: _denormalize reads self.diffs,
_gotoPos reads self.motors, the blocking step reads self.venv,
_self_observe reads self.motors, self.diffs and self.cam and assigns
self.observation, then the return tuple reads self.observation, runs
_getReward (which reads self.sword_collision and self.frames_after_hit
and assigns the updated counter) and finally reads self.done. -/
def stepPy (limits : JointLimits) (e : PyEnv) (actions : Fin 6 → ℚ)
    (colliding : Bool) : Except PyErr (Unit × ℤ × Bool × PyEnv) := do
  let acts := fun i => clip (actions i)
  let d ← readAttr e.diffs "diffs"
  let _targets := fun i : Fin 6 => ((acts i + 1) / 2) * d i + (limits i).1
  let _ ← readAttr e.motors "motors"
  let _ ← readAttr e.venv "venv"
  let _ ← readAttr e.motors "motors"
  let _ ← readAttr e.diffs "diffs"
  let _ ← readAttr e.venv "venv"
  let _ ← readAttr e.cam "cam"
  let e1 : PyEnv := { e with observation := some () }
  let obs ← readAttr e1.observation "observation"
  let _ ← readAttr e1.sword_collision "sword_collision"
  let f ← readAttr e1.frames_after_hit "frames_after_hit"
  let r := getReward colliding f
  let e2 : PyEnv := { e1 with frames_after_hit := some r.2 }
  let dn ← readAttr e2.done "done"
  pure (obs, r.1, dn, e2)

/-- True exactly when a step call returned rather than raised. -/
def stepReturned {α : Type} (x : Except PyErr α) : Bool :=
  match x with
  | Except.ok _ => true
  | Except.error _ => false

/-
  Concrete instances used by the witness theorems.
-/

/-- A concrete joint-limit table: every joint ranges over [0, 2]. -/
def limits0 : JointLimits := fun _ => ((0 : ℚ), (2 : ℚ))

/-- A concrete adapter state as left by a reset. -/
def env0 : Env :=
  { frames_after_hit := -1
    done := false
    targetA := fun _ => 0
    targetB := fun _ => 0 }

/-- A concrete in-range action vector. -/
def acts0 : Fin 6 → ℚ := fun _ => 0

/-- A concrete native pose, inside the limits0 ranges. -/
def pos0 : Fin 6 → ℚ := fun _ => 1

/-- A concrete action vector with every component out of range. -/
def actsBig : Fin 6 → ℚ := fun _ => 5

/-- A concrete noise draw, inside every RANDOM_NOISE range. -/
def noise0 : Fin 6 → ℤ := fun _ => 0

/-
  Helper lemmas shared by the claim theorems.
-/

/-- One step maps the counter by the getReward transition. -/
theorem stepEnv_frames (limits : JointLimits) (e : Env) (actions : Fin 6 → ℚ)
    (c : Bool) :
    (stepEnv limits e actions c).frames_after_hit
      = (getReward c e.frames_after_hit).2 := rfl

/-- The getReward transition keeps the counter in the invariant range. -/
theorem getReward_cooldownOK (c : Bool) (f : ℤ) (h : cooldownOK f) :
    cooldownOK (getReward c f).2 := by
  simp only [cooldownOK, INVULNERABILITY_AFTER_HIT] at h
  have hf : f = -1 ∨ f = 0 ∨ f = 1 ∨ f = 2 := by omega
  rcases hf with rfl | rfl | rfl | rfl <;> cases c <;> decide

/-- Iterated steps never change the done flag. -/
theorem runSteps_done (limits : JointLimits)
    (xs : List ((Fin 6 → ℚ) × Bool)) :
    ∀ e : Env, (runSteps limits e xs).done = e.done := by
  induction xs with
  | nil => intro e; rfl
  | cons x xs ih => intro e; exact (ih (stepEnv limits e x.1 x.2)).trans rfl

/-- Iterated steps never change the arm B target. -/
theorem runSteps_targetB (limits : JointLimits)
    (xs : List ((Fin 6 → ℚ) × Bool)) :
    ∀ e : Env, (runSteps limits e xs).targetB = e.targetB := by
  induction xs with
  | nil => intro e; rfl
  | cons x xs ih => intro e; exact (ih (stepEnv limits e x.1 x.2)).trans rfl

/-
  Claim theorems.
-/

/-- Claim C1.  The claim states that a colliding step while the counter
is in the cooling range 0..2 leaves the counter unchanged (advance only
on non-colliding steps).  The code behaves otherwise: its else branch
runs whenever the counter is not -1, even while colliding, so a
colliding step at counter 0 yields reward 0 but advances the counter to
1; consequently holding the swords in sustained contact earns a second
reward on the fifth consecutive colliding frame, which also contradicts
the source comments (lines 96-97 and 103-105). -/
theorem getReward_colliding_while_cooling_advances :
    getReward true 0 = (0, 1)
    ∧ (getReward true ((getReward true ((getReward true ((getReward true
        ((getReward true (-1)).2)).2)).2)).2)).1 = 1 := by
  decide

/-- Claim C2.  The cooldown counter is -1 after construction and after
every reset, and every step call maps a counter in the invariant range
(-1 or 0..2) back into that range; the value 3 is never observable at an
operation boundary. -/
theorem cooldown_counter_invariant :
    cooldownOK initFramesAfterHit
    ∧ (∀ (e : Env) (noise : Fin 6 → ℤ),
        cooldownOK ((reset e noise).frames_after_hit))
    ∧ (∀ (limits : JointLimits) (e : Env) (actions : Fin 6 → ℚ) (c : Bool),
        cooldownOK e.frames_after_hit →
        cooldownOK ((stepEnv limits e actions c).frames_after_hit)) := by
  refine ⟨Or.inl rfl, fun e noise => Or.inl rfl, ?_⟩
  intro limits e actions c h
  rw [stepEnv_frames]
  exact getReward_cooldownOK c e.frames_after_hit h

/-- Witness for claim C2 at a concrete state and input. -/
theorem cooldown_counter_invariant_witness :
    cooldownOK env0.frames_after_hit
    ∧ cooldownOK ((stepEnv limits0 env0 acts0 true).frames_after_hit) :=
  ⟨Or.inl rfl,
    cooldown_counter_invariant.2.2 limits0 env0 acts0 true (Or.inl rfl)⟩

/-- Claim C3.  For every joint-limit table, joint index and native angle
within the limits (with min below max), denormalize inverts normalize
exactly, and the normalized value lies in [-1, 1]. -/
theorem normalize_denormalize_roundtrip (limits : JointLimits)
    (pos : Fin 6 → ℚ) (i : Fin 6)
    (hlt : (limits i).1 < (limits i).2)
    (hlo : (limits i).1 ≤ pos i) (hhi : pos i ≤ (limits i).2) :
    denormalize limits (normalize limits pos) i = pos i
    ∧ -1 ≤ normalize limits pos i ∧ normalize limits pos i ≤ 1 := by
  have hd0 : 0 < diffs limits i := by
    unfold diffs
    linarith
  have hdne : diffs limits i ≠ 0 := ne_of_gt hd0
  refine ⟨?_, ?_, ?_⟩
  · unfold denormalize normalize
    field_simp
    ring
  · unfold normalize
    have h1 : 0 ≤ (pos i - (limits i).1) / diffs limits i :=
      div_nonneg (by linarith) hd0.le
    linarith
  · unfold normalize
    have h1 : (pos i - (limits i).1) / diffs limits i ≤ 1 := by
      rw [div_le_one hd0]
      unfold diffs
      linarith
    linarith

/-- Witness for claim C3 at a concrete table, pose and index. -/
theorem normalize_denormalize_roundtrip_witness :
    denormalize limits0 (normalize limits0 pos0) 0 = pos0 0
    ∧ -1 ≤ normalize limits0 pos0 0 ∧ normalize limits0 pos0 0 ≤ 1 :=
  normalize_denormalize_roundtrip limits0 pos0 0 (by decide) (by decide)
    (by decide)

/-- Claim C4.  For every action vector, including out-of-range ones, the
step operation clamps each component to [-1, 1], the targets it commands
to arm A are exactly the denormalization of the clamped vector, and each
commanded target lies within the joint limits. -/
theorem step_clamps_and_bounds_targets (limits : JointLimits) (e : Env)
    (actions : Fin 6 → ℚ) (c : Bool) (i : Fin 6)
    (h : (limits i).1 ≤ (limits i).2) :
    (-1 ≤ clip (actions i) ∧ clip (actions i) ≤ 1)
    ∧ (step limits e actions c).1
        = denormalize limits (fun j => clip (actions j))
    ∧ (limits i).1 ≤ (step limits e actions c).1 i
    ∧ (step limits e actions c).1 i ≤ (limits i).2 := by
  have hc1 : -1 ≤ clip (actions i) :=
    le_min (le_max_right (actions i) (-1)) (by norm_num)
  have hc2 : clip (actions i) ≤ 1 := min_le_right (max (actions i) (-1)) 1
  have hd : 0 ≤ diffs limits i := by
    unfold diffs
    linarith
  have ht0 : 0 ≤ (clip (actions i) + 1) / 2 :=
    div_nonneg (by linarith) (by norm_num)
  have ht1 : (clip (actions i) + 1) / 2 ≤ 1 := by
    rw [div_le_one (by norm_num : (0 : ℚ) < 2)]
    linarith
  refine ⟨⟨hc1, hc2⟩, rfl, ?_, ?_⟩
  · show (limits i).1
      ≤ ((clip (actions i) + 1) / 2) * diffs limits i + (limits i).1
    have h2 := mul_nonneg ht0 hd
    linarith
  · show ((clip (actions i) + 1) / 2) * diffs limits i + (limits i).1
      ≤ (limits i).2
    have h2 := mul_le_of_le_one_left hd ht1
    have h3 : diffs limits i = (limits i).2 - (limits i).1 := rfl
    linarith

/-- Witness for claim C4 at a concrete table, state and an out-of-range
action vector. -/
theorem step_clamps_and_bounds_targets_witness :
    (-1 ≤ clip (actsBig 0) ∧ clip (actsBig 0) ≤ 1)
    ∧ (step limits0 env0 actsBig false).1
        = denormalize limits0 (fun j => clip (actsBig j))
    ∧ (limits0 0).1 ≤ (step limits0 env0 actsBig false).1 0
    ∧ (step limits0 env0 actsBig false).1 0 ≤ (limits0 0).2 :=
  step_clamps_and_bounds_targets limits0 env0 actsBig false 0 (by decide)

/-- Claim C5.  Every step call returns a reward in the set containing 0
and 1; the reward is 1 exactly when the sensor reports a collision and
the counter was -1 before the call, and in that case the counter after
the call is 0. -/
theorem step_reward_rule (limits : JointLimits) (e : Env)
    (actions : Fin 6 → ℚ) (c : Bool) :
    (stepReward limits e actions c = 0 ∨ stepReward limits e actions c = 1)
    ∧ (stepReward limits e actions c = 1
        ↔ (c = true ∧ e.frames_after_hit = -1))
    ∧ ((c = true ∧ e.frames_after_hit = -1) →
        (stepEnv limits e actions c).frames_after_hit = 0) := by
  have h1 : stepReward limits e actions c = (getReward c e.frames_after_hit).1 :=
    rfl
  rw [h1, stepEnv_frames]
  unfold getReward
  split
  next h =>
    exact ⟨Or.inr rfl, iff_of_true rfl h, fun _ => rfl⟩
  next h =>
    refine ⟨Or.inl rfl, ?_, fun hc => absurd hc h⟩
    constructor
    · intro habs
      exact absurd habs (by norm_num)
    · intro hc
      exact absurd hc h

/-- Witness for claim C5 at a concrete eligible colliding step. -/
theorem step_reward_rule_witness :
    (stepReward limits0 env0 acts0 true = 0
      ∨ stepReward limits0 env0 acts0 true = 1)
    ∧ (stepReward limits0 env0 acts0 true = 1
        ↔ (true = true ∧ env0.frames_after_hit = -1))
    ∧ ((true = true ∧ env0.frames_after_hit = -1) →
        (stepEnv limits0 env0 acts0 true).frames_after_hit = 0) :=
  step_reward_rule limits0 env0 acts0 true

/-- Claim C6.  After a reset from any prior adapter state, the cooldown
counter is -1 and the done flag is false. -/
theorem reset_clears_counter_and_done (e : Env) (noise : Fin 6 → ℤ) :
    (reset e noise).frames_after_hit = -1 ∧ (reset e noise).done = false :=
  ⟨rfl, rfl⟩

/-- Claim C7.  No step call changes the done flag, and every step taken
after a reset (through any number of intervening steps) returns done =
false: the environment never self-terminates. -/
theorem step_never_terminates (limits : JointLimits) (e : Env)
    (noise : Fin 6 → ℤ) (xs : List ((Fin 6 → ℚ) × Bool))
    (actions : Fin 6 → ℚ) (c : Bool) :
    (stepEnv limits e actions c).done = e.done
    ∧ stepDone limits (runSteps limits (reset e noise) xs) actions c
        = false := by
  refine ⟨rfl, ?_⟩
  have h1 : stepDone limits (runSteps limits (reset e noise) xs) actions c
      = (runSteps limits (reset e noise) xs).done := rfl
  rw [h1, runSteps_done]
  rfl

/-- Claim C8.  No step call commands arm B: the arm B target set at
reset is unchanged by every step call within the episode. -/
theorem step_preserves_armB_target (limits : JointLimits) (e : Env)
    (noise : Fin 6 → ℤ) (xs : List ((Fin 6 → ℚ) × Bool))
    (actions : Fin 6 → ℚ) (c : Bool) :
    (stepEnv limits e actions c).targetB = e.targetB
    ∧ (runSteps limits (reset e noise) xs).targetB
        = (reset e noise).targetB :=
  ⟨rfl, runSteps_targetB limits xs (reset e noise)⟩

/-- Claim C9.  On every reset, arm B joint i is commanded to REST_POS[i]
plus the noise draw for joint i; under the randint contract (low
inclusive, high exclusive) the commanded value lies within
[REST_POS[i] + low_i, REST_POS[i] + high_i]. -/
theorem reset_randomizes_armB (e : Env) (noise : Fin 6 → ℤ) (i : Fin 6)
    (h1 : (noiseRange i).1 ≤ noise i) (h2 : noise i < (noiseRange i).2) :
    (reset e noise).targetB i = ((restPosAt i + noise i : ℤ) : ℚ)
    ∧ ((restPosAt i + (noiseRange i).1 : ℤ) : ℚ) ≤ (reset e noise).targetB i
    ∧ (reset e noise).targetB i
        ≤ ((restPosAt i + (noiseRange i).2 : ℤ) : ℚ) := by
  refine ⟨rfl, ?_, ?_⟩
  · show ((restPosAt i + (noiseRange i).1 : ℤ) : ℚ)
      ≤ ((restPosAt i + noise i : ℤ) : ℚ)
    have hz : (restPosAt i + (noiseRange i).1 : ℤ) ≤ restPosAt i + noise i := by
      omega
    exact_mod_cast hz
  · show ((restPosAt i + noise i : ℤ) : ℚ)
      ≤ ((restPosAt i + (noiseRange i).2 : ℤ) : ℚ)
    have hz : (restPosAt i + noise i : ℤ) ≤ restPosAt i + (noiseRange i).2 := by
      omega
    exact_mod_cast hz

/-- Witness for claim C9 at a concrete state, noise draw and index. -/
theorem reset_randomizes_armB_witness :
    (reset env0 noise0).targetB 0 = ((restPosAt 0 + noise0 0 : ℤ) : ℚ)
    ∧ ((restPosAt 0 + (noiseRange 0).1 : ℤ) : ℚ)
        ≤ (reset env0 noise0).targetB 0
    ∧ (reset env0 noise0).targetB 0
        ≤ ((restPosAt 0 + (noiseRange 0).2 : ℤ) : ℚ) :=
  reset_randomizes_armB env0 noise0 0 (by decide) (by decide)

/-- Claim C10.  On a freshly constructed environment, before any reset,
a step call raises AttributeError for the done attribute (read last, when
producing the termination flag); the done attribute is indeed absent
after construction while the cooldown counter, the range widths and the
motor handles are present, and after a reset the same step call
returns. -/
theorem step_before_reset_raises (limits : JointLimits)
    (actions : Fin 6 → ℚ) (c : Bool) :
    stepPy limits (initPyEnv limits) actions c
      = Except.error (PyErr.attributeError "done")
    ∧ (initPyEnv limits).done = none
    ∧ (initPyEnv limits).frames_after_hit.isSome = true
    ∧ (initPyEnv limits).diffs.isSome = true
    ∧ (initPyEnv limits).motors.isSome = true
    ∧ stepReturned (stepPy limits (resetPyEnv (initPyEnv limits)) actions c)
        = true :=
  ⟨rfl, rfl, rfl, rfl, rfl, rfl⟩

end ErgoFight
